import Mathlib

/-!
Verification of the relaybot ingestion, routing and temporal-derivation layer.

The definitions below are shallow embeddings of the functions in
`src/index.js` and `src/services/notion.js` of the relaybot repository.
JavaScript `Date` values are modelled as integer day counts since the Unix
epoch (the deployment runs the process in UTC, so local time equals UTC),
strings as Lean strings, and JavaScript truthiness of possibly-absent
string-valued fields as the `truthy` predicate below.
-/

namespace Relaybot

/-- Proleptic-Gregorian leap-year test, as implemented by JavaScript `Date`. -/
def IsLeap (y : Int) : Prop := (y % 4 = 0 ∧ y % 100 ≠ 0) ∨ y % 400 = 0

instance (y : Int) : Decidable (IsLeap y) := by unfold IsLeap; infer_instance

/-- Days in the months strictly before month `m`, in a non-leap year. -/
def monthCum (m : Int) : Int :=
  if m = 1 then 0 else if m = 2 then 31 else if m = 3 then 59 else if m = 4 then 90
  else if m = 5 then 120 else if m = 6 then 151 else if m = 7 then 181
  else if m = 8 then 212 else if m = 9 then 243 else if m = 10 then 273
  else if m = 11 then 304 else 334

/-- Length of month `m` of year `y`. -/
def daysInMonth (y m : Int) : Int :=
  if m = 2 then (if IsLeap y then 29 else 28)
  else if m = 4 ∨ m = 6 ∨ m = 9 ∨ m = 11 then 30
  else 31

/-- A well-formed calendar date. -/
def ValidDate (y m d : Int) : Prop :=
  1 ≤ m ∧ m ≤ 12 ∧ 1 ≤ d ∧ d ≤ daysInMonth y m

instance (y m d : Int) : Decidable (ValidDate y m d) := by unfold ValidDate; infer_instance

/-- Day count of the civil date `y-m-d` relative to the Unix epoch
(1970-01-01 is day 0), i.e. `Date.UTC(y, m-1, d) / 86400000`. -/
def dateToDays (y m d : Int) : Int :=
  365 * (y - 1) + (y - 1) / 4 - (y - 1) / 100 + (y - 1) / 400
    + monthCum m + (if 2 < m ∧ IsLeap y then 1 else 0) + (d - 1) - 719162

/-- JavaScript `Date#getDay` / `getUTCDay` on a day count: 0 = Sunday, ..., 6 = Saturday. -/
def jsDow (t : Int) : Int := (t + 4) % 7

theorem dateToDays_day (y m d : Int) : dateToDays y m d = dateToDays y m 0 + d := by
  unfold dateToDays; ring

/-- JavaScript truthiness of a possibly-absent string field: `undefined`,
`null` and the empty string are falsy. -/
def truthy : Option String → Bool
  | none => false
  | some s => s != ""

/-! ### notion.js: getNextThursday (lines 317-328 of the current snapshot) -/

/-- `getNextThursday` from `src/services/notion.js`, on the day count of
"today": weekday-distance formula, with a full 7-day jump when today is
already a Thursday.  `setDate` past the end of a month rolls over, so on day
counts it is plain addition. -/
def getNextThursday (today : Int) : Int :=
  let dayOfWeek := jsDow today
  let daysUntilThursday := (4 - dayOfWeek + 7) % 7
  let daysToAdd := if daysUntilThursday = 0 then 7 else daysUntilThursday
  today + daysToAdd

/-! ### notion.js: getAmsterdamOffset and buildDateProperty (lines 261-311) -/

/-- `getAmsterdamOffset` from `src/services/notion.js`, on a parsed calendar
date.  `new Date(dateStr)` for a date-only ISO string is midnight UTC of that
date, and `new Date(year, 2, 31 - marchLast.getDay(), 2, 0)` is 02:00 on the
last-day-of-March-minus-weekday day.  All instants of one call lie in the
same year, so they are compared here as minute counts. -/
def getAmsterdamOffset (y m d : Int) : String :=
  let dateMin := dateToDays y m d * 1440
  let dstStartMin := dateToDays y 3 (31 - jsDow (dateToDays y 3 31)) * 1440 + 2 * 60
  let dstEndMin := dateToDays y 10 (31 - jsDow (dateToDays y 10 31)) * 1440 + 3 * 60
  if dstStartMin ≤ dateMin ∧ dateMin < dstEndMin then "+02:00" else "+01:00"

/-- The last Sunday of a 31-day month `mo` of year `y`, stated the way the
spec states it: the latest day of the month whose weekday is Sunday. -/
def lastSunday (y mo : Int) : Int :=
  if jsDow (dateToDays y mo 31) = 0 then 31
  else if jsDow (dateToDays y mo 30) = 0 then 30
  else if jsDow (dateToDays y mo 29) = 0 then 29
  else if jsDow (dateToDays y mo 28) = 0 then 28
  else if jsDow (dateToDays y mo 27) = 0 then 27
  else if jsDow (dateToDays y mo 26) = 0 then 26
  else 25

/-- Spec-side daylight-saving predicate: the midnight instant of `y-m-d`
falls on or after 02:00 of the last Sunday of March and strictly before
03:00 of the last Sunday of October of its year. -/
def inSummer (y m d : Int) : Prop :=
  dateToDays y 3 (lastSunday y 3) * 1440 + 2 * 60 ≤ dateToDays y m d * 1440 ∧
  dateToDays y m d * 1440 < dateToDays y 10 (lastSunday y 10) * 1440 + 3 * 60

instance (y m d : Int) : Decidable (inSummer y m d) := by unfold inSummer; infer_instance

/-- The source's last-day-of-month-minus-weekday formula lands exactly on the
last Sunday of a 31-day month. -/
theorem lastSunday_eq (y mo : Int) :
    lastSunday y mo = 31 - jsDow (dateToDays y mo 31) := by
  have h31 := dateToDays_day y mo 31
  have h30 := dateToDays_day y mo 30
  have h29 := dateToDays_day y mo 29
  have h28 := dateToDays_day y mo 28
  have h27 := dateToDays_day y mo 27
  have h26 := dateToDays_day y mo 26
  unfold lastSunday jsDow
  split_ifs <;> omega

/-- Digit run to a number, the way `Date` parses the pieces of an ISO date. -/
def digitsToNat (l : List Char) : Option Nat :=
  if l ≠ [] ∧ l.all Char.isDigit then
    some (l.foldl (fun n c => 10 * n + (c.toNat - 48)) 0)
  else none

/-- Splitting a character list at the dashes of an ISO date string. -/
def splitDash : List Char → List (List Char)
  | [] => [[]]
  | '-' :: rest => [] :: splitDash rest
  | c :: rest =>
    match splitDash rest with
    | [] => [[c]]
    | g :: gs => (c :: g) :: gs

/-- ISO `YYYY-MM-DD` date-string parser, the shape the AI-extraction
collaborator is instructed to produce and `new Date(dateStr)` consumes. -/
def parseIsoDate (s : String) : Option (Int × Int × Int) :=
  match (splitDash s.toList).map digitsToNat with
  | [some yn, some mn, some dn] => some ((yn : Int), (mn : Int), (dn : Int))
  | _ => none

/-- `getAmsterdamOffset` on the date string it actually receives.  An
unparsable string makes every `Date` comparison in the source false (NaN),
which yields the winter offset. -/
def getAmsterdamOffsetStr (s : String) : String :=
  match parseIsoDate s with
  | some (y, m, d) => getAmsterdamOffset y m d
  | none => "+01:00"

/-- The value of a Notion date property: `start` and the optional `end`
field (written with guillemets because `end` is a Lean keyword). -/
structure DateObj where
  start : String
  «end» : Option String
deriving DecidableEq, Repr

/-- A Notion date property, `{ date: null }` when no start date exists. -/
structure DateProp where
  date : Option DateObj
deriving DecidableEq, Repr

/-- `buildDateProperty` from `src/services/notion.js` (lines 280-311).  The
source's `else if (startTime && !endTime && endDate)` branch is empty (dead
code), so the end value stays the bare date there. -/
def buildDateProperty (startDate startTime endDate endTime : Option String) : DateProp :=
  if truthy startDate = true then
    let sd := startDate.getD ""
    let start :=
      if truthy startTime = true then
        sd ++ "T" ++ startTime.getD "" ++ ":00" ++ getAmsterdamOffsetStr sd
      else sd
    if truthy endDate = true ∨ truthy endTime = true then
      let e0 := if truthy endDate = true then endDate.getD "" else sd
      let e :=
        if truthy endTime = true then
          e0 ++ "T" ++ endTime.getD "" ++ ":00" ++ getAmsterdamOffsetStr e0
        else e0
      if e ≠ start then ⟨some ⟨start, some e⟩⟩ else ⟨some ⟨start, none⟩⟩
    else ⟨some ⟨start, none⟩⟩
  else ⟨none⟩

/-- The composed start value of `buildDateProperty`. -/
def composeStart (startDate startTime : Option String) : String :=
  if truthy startTime = true then
    startDate.getD "" ++ "T" ++ startTime.getD "" ++ ":00"
      ++ getAmsterdamOffsetStr (startDate.getD "")
  else startDate.getD ""

/-- The composed end value of `buildDateProperty`: the end date (falling back
to the start date), plus the end time and its own DST offset when an end time
is supplied. -/
def composeEnd (startDate endDate endTime : Option String) : String :=
  let e0 := if truthy endDate = true then endDate.getD "" else startDate.getD ""
  if truthy endTime = true then
    e0 ++ "T" ++ endTime.getD "" ++ ":00" ++ getAmsterdamOffsetStr e0
  else e0

/-- C3: the UTC offset attached to a timed start value is "+02:00" exactly
when the (midnight instant of the) date lies between 02:00 of the last Sunday
of March, inclusive, and 03:00 of the last Sunday of October, exclusive, of
its year, the last Sunday being reached by the last-day-of-month-minus-
weekday formula (`lastSunday_eq`); composing 2025-03-15 18:00 yields offset
+01:00 and 2025-07-01 18:00 yields +02:00. -/
theorem amsterdamOffset_dst_rule :
    (∀ y m d : Int, getAmsterdamOffset y m d = "+02:00" ↔ inSummer y m d) ∧
    buildDateProperty (some "2025-03-15") (some "18:00") none none =
      ⟨some ⟨"2025-03-15T18:00:00+01:00", none⟩⟩ ∧
    buildDateProperty (some "2025-07-01") (some "18:00") none none =
      ⟨some ⟨"2025-07-01T18:00:00+02:00", none⟩⟩ := by
  refine ⟨fun y m d => ?_, by decide, by decide⟩
  simp only [getAmsterdamOffset, inSummer]
  rw [lastSunday_eq y 3, lastSunday_eq y 10]
  split_ifs with h
  · exact iff_of_true rfl h
  · exact iff_of_false (by decide) h

/-- Witness for C3: 2025-07-01 satisfies the spec-side DST predicate, and the
code assigns it the summer offset. -/
theorem amsterdamOffset_dst_rule_witness :
    inSummer 2025 7 1 ∧ getAmsterdamOffset 2025 7 1 = "+02:00" :=
  ⟨by decide, (amsterdamOffset_dst_rule.1 2025 7 1).mpr (by decide)⟩

/-- C4: when a start date is present, the composed range carries an `end`
field exactly when an end date or end time was supplied and the fully
composed end value differs from the composed start value; any `end` value
equals the composed end value, and when an end time is supplied that value
carries its own DST offset computed from the end date (falling back to the
start date). -/
theorem buildDateProperty_end_iff (sD sT eD eT : Option String)
    (h : truthy sD = true) :
    ∃ obj : DateObj, (buildDateProperty sD sT eD eT).date = some obj ∧
      obj.start = composeStart sD sT ∧
      (obj.«end».isSome = true ↔
        ((truthy eD = true ∨ truthy eT = true) ∧
          composeEnd sD eD eT ≠ composeStart sD sT)) ∧
      (∀ e : String, obj.«end» = some e → e = composeEnd sD eD eT) ∧
      (truthy eT = true →
        composeEnd sD eD eT =
          (if truthy eD = true then eD.getD "" else sD.getD "") ++ "T" ++ eT.getD "" ++ ":00"
            ++ getAmsterdamOffsetStr
                (if truthy eD = true then eD.getD "" else sD.getD "")) := by
  have hbd : buildDateProperty sD sT eD eT =
      if truthy eD = true ∨ truthy eT = true then
        (if composeEnd sD eD eT ≠ composeStart sD sT then
          ⟨some ⟨composeStart sD sT, some (composeEnd sD eD eT)⟩⟩
        else ⟨some ⟨composeStart sD sT, none⟩⟩)
      else ⟨some ⟨composeStart sD sT, none⟩⟩ := by
    simp only [buildDateProperty, composeStart, composeEnd, h, eq_self_iff_true, if_true]
  have hTail : truthy eT = true →
      composeEnd sD eD eT =
        (if truthy eD = true then eD.getD "" else sD.getD "") ++ "T" ++ eT.getD "" ++ ":00"
          ++ getAmsterdamOffsetStr
              (if truthy eD = true then eD.getD "" else sD.getD "") := by
    intro hT
    simp only [composeEnd, hT, eq_self_iff_true, if_true]
  by_cases hET : truthy eD = true ∨ truthy eT = true
  · by_cases hNe : composeEnd sD eD eT = composeStart sD sT
    · refine ⟨⟨composeStart sD sT, none⟩, ?_, rfl, ?_, ?_, hTail⟩
      · rw [hbd, if_pos hET, if_neg (not_not_intro hNe)]
      · exact iff_of_false (by simp) (fun hc => hc.2 hNe)
      · intro e he
        exact absurd he (by simp)
    · refine ⟨⟨composeStart sD sT, some (composeEnd sD eD eT)⟩, ?_, rfl, ?_, ?_, hTail⟩
      · rw [hbd, if_pos hET, if_pos hNe]
      · exact iff_of_true rfl ⟨hET, hNe⟩
      · intro e he
        exact (Option.some.inj he).symm
  · refine ⟨⟨composeStart sD sT, none⟩, ?_, rfl, ?_, ?_, hTail⟩
    · rw [hbd, if_neg hET]
    · exact iff_of_false (by simp) (fun hc => hET hc.1)
    · intro e he
      exact absurd he (by simp)

/-- Witness for C4: a timed end on the same day differs from the start, so an
`end` field is present. -/
theorem buildDateProperty_end_iff_witness :
    truthy (some "2025-07-01") = true ∧
    (∃ obj : DateObj,
      (buildDateProperty (some "2025-07-01") (some "18:00") none (some "21:00")).date
          = some obj ∧
      obj.start = composeStart (some "2025-07-01") (some "18:00") ∧
      (obj.«end».isSome = true ↔
        ((truthy (none : Option String) = true ∨ truthy (some "21:00") = true) ∧
          composeEnd (some "2025-07-01") none (some "21:00")
            ≠ composeStart (some "2025-07-01") (some "18:00"))) ∧
      (∀ e : String, obj.«end» = some e →
        e = composeEnd (some "2025-07-01") none (some "21:00")) ∧
      (truthy (some "21:00") = true →
        composeEnd (some "2025-07-01") none (some "21:00") =
          (if truthy (none : Option String) = true then (none : Option String).getD ""
           else (some "2025-07-01").getD "") ++ "T" ++ (some "21:00").getD "" ++ ":00"
            ++ getAmsterdamOffsetStr
                (if truthy (none : Option String) = true then (none : Option String).getD ""
                 else (some "2025-07-01").getD ""))) :=
  ⟨by decide, buildDateProperty_end_iff (some "2025-07-01") (some "18:00") none
      (some "21:00") (by decide)⟩

/-- C5: `getNextThursday` always returns a Thursday strictly after today, at
most 7 days ahead, and exactly 7 days ahead when today is a Thursday. -/
theorem getNextThursday_spec (t : Int) :
    jsDow (getNextThursday t) = 4 ∧
    t < getNextThursday t ∧
    getNextThursday t ≤ t + 7 ∧
    (jsDow t = 4 → getNextThursday t = t + 7) := by
  simp only [getNextThursday, jsDow]
  omega

/-- Witness for C5: day 0 (1970-01-01) is a Thursday and its next Thursday is
exactly 7 days later. -/
theorem getNextThursday_spec_witness :
    jsDow 0 = 4 ∧ getNextThursday 0 = 0 + 7 :=
  ⟨by decide, (getNextThursday_spec 0).2.2.2 (by decide)⟩

/-! ### notion.js: getWeekNumber (lines 335-341) -/

/-- `getWeekNumber` from `src/services/notion.js`.  `dayNum` is
`d.getUTCDay() || 7` (Monday = 1, ..., Sunday = 7), and
`d.setUTCDate(d.getUTCDate() + 4 - dayNum)` moves to the Thursday of the
date's Monday-based week.  The source then reads that Thursday's civil year
with `getUTCFullYear`; the Thursday lies within three days of a date of year
`y`, so its civil year is `y - 1`, `y` or `y + 1`, singled out here by the
January-1 boundaries.  The final
`Math.ceil(((d - yearStart) / 86400000 + 1) / 7)` acts on an exact
non-negative integer day difference, so it is `(diff + 1 + 6) / 7` in
integer division. -/
def getWeekNumber (y m d : Int) : Int :=
  let D := dateToDays y m d
  let dayNum := if jsDow D = 0 then 7 else jsDow D
  let T := D + 4 - dayNum
  let yT := if T < dateToDays y 1 1 then y - 1
            else if dateToDays (y + 1) 1 1 ≤ T then y + 1
            else y
  let yearStart := dateToDays yT 1 1
  (T - yearStart + 1 + 6) / 7

/-- The day in January of the first Thursday of year `y`. -/
def firstThursday (y : Int) : Int :=
  if jsDow (dateToDays y 1 1) = 4 then 1
  else if jsDow (dateToDays y 1 2) = 4 then 2
  else if jsDow (dateToDays y 1 3) = 4 then 3
  else if jsDow (dateToDays y 1 4) = 4 then 4
  else if jsDow (dateToDays y 1 5) = 4 then 5
  else if jsDow (dateToDays y 1 6) = 4 then 6
  else 7

/-- The Monday that starts ISO week 1 of year `y`: the Monday of the week
containing the year's first Thursday. -/
def week1Monday (y : Int) : Int := dateToDays y 1 (firstThursday y) - 3

/-- ISO-8601 week number, stated from the standard's definition: weeks run
Monday to Sunday, week 1 is the week containing the year's first Thursday,
and consecutive weeks count up from `week1Monday` of the ISO year the date
falls in (the unique ISO year, singled out among the date's neighbouring
years by the `week1Monday` boundaries). -/
def isoWeekNumber (y m d : Int) : Int :=
  let D := dateToDays y m d
  let iy := if D < week1Monday y then y - 1
            else if week1Monday (y + 1) ≤ D then y + 1
            else y
  (D - week1Monday iy) / 7 + 1

theorem firstThursday_spec (y : Int) :
    1 ≤ firstThursday y ∧ firstThursday y ≤ 7 ∧
    jsDow (dateToDays y 1 (firstThursday y)) = 4 := by
  have h1 := dateToDays_day y 1 1
  have h2 := dateToDays_day y 1 2
  have h3 := dateToDays_day y 1 3
  have h4 := dateToDays_day y 1 4
  have h5 := dateToDays_day y 1 5
  have h6 := dateToDays_day y 1 6
  have h7 := dateToDays_day y 1 7
  unfold firstThursday jsDow
  split_ifs <;> omega

theorem week1Monday_spec (y : Int) :
    jsDow (week1Monday y + 3) = 4 ∧
    dateToDays y 1 1 - 3 ≤ week1Monday y ∧ week1Monday y ≤ dateToDays y 1 1 + 3 := by
  obtain ⟨hf1, hf7, hf4⟩ := firstThursday_spec y
  have hd := dateToDays_day y 1 (firstThursday y)
  have h0 := dateToDays_day y 1 1
  unfold week1Monday jsDow at *
  omega

theorem dateToDays_jan1 (y : Int) :
    dateToDays y 1 1 =
      365 * (y - 1) + (y - 1) / 4 - (y - 1) / 100 + (y - 1) / 400 - 719162 := by
  have hno : ¬((2:Int) < 1 ∧ IsLeap y) := by
    rintro ⟨hc, -⟩
    omega
  unfold dateToDays
  rw [show monthCum 1 = 0 from by decide, if_neg hno]
  ring

theorem dateToDays_year_succ (y : Int) :
    dateToDays (y + 1) 1 1 = dateToDays y 1 1 + (if IsLeap y then 366 else 365) := by
  rw [dateToDays_jan1, dateToDays_jan1]
  have hL : IsLeap y ↔ (y % 4 = 0 ∧ y % 100 ≠ 0) ∨ y % 400 = 0 := Iff.rfl
  by_cases hc : IsLeap y
  · rw [if_pos hc]
    rw [hL] at hc
    omega
  · rw [if_neg hc]
    rw [hL] at hc
    omega

theorem dateToDays_doy (y m d : Int) :
    dateToDays y m d = dateToDays y 1 1 + monthCum m
      + (if 2 < m ∧ IsLeap y then 1 else 0) + (d - 1) := by
  have hno : ¬((2:Int) < 1 ∧ IsLeap y) := by
    rintro ⟨hc, -⟩
    omega
  unfold dateToDays
  rw [show monthCum 1 = 0 from by decide, if_neg hno]
  ring

theorem dateToDays_bounds (y m d : Int) (h : ValidDate y m d) :
    dateToDays y 1 1 ≤ dateToDays y m d ∧ dateToDays y m d < dateToDays (y + 1) 1 1 := by
  obtain ⟨hm1, hm2, hd1, hd2⟩ := h
  rw [dateToDays_doy y m d, dateToDays_year_succ y]
  by_cases hl : IsLeap y
  · rw [if_pos hl]
    unfold daysInMonth at hd2
    interval_cases m <;> simp_all [monthCum] <;> omega
  · rw [if_neg hl]
    unfold daysInMonth at hd2
    interval_cases m <;> simp_all [monthCum] <;> omega

/-- C6: `getWeekNumber` computes the ISO-8601 week number of every valid
calendar date, weeks starting on Monday and week 1 being the week that
contains the year's first Thursday; this covers dates belonging to the final
week (52 or 53) of the previous ISO year, such as a January 1 that falls on
a Friday. -/
theorem getWeekNumber_iso (y m d : Int) (h : ValidDate y m d) :
    getWeekNumber y m d = isoWeekNumber y m d := by
  obtain ⟨hb1, hb2⟩ := dateToDays_bounds y m d h
  have hy0 := dateToDays_year_succ (y - 1)
  rw [show y - 1 + 1 = y by ring] at hy0
  have hy1 := dateToDays_year_succ y
  have hy2 := dateToDays_year_succ (y + 1)
  obtain ⟨hw0a, hw0b, hw0c⟩ := week1Monday_spec (y - 1)
  obtain ⟨hw1a, hw1b, hw1c⟩ := week1Monday_spec y
  obtain ⟨hw2a, hw2b, hw2c⟩ := week1Monday_spec (y + 1)
  simp only [getWeekNumber, isoWeekNumber]
  unfold jsDow at *
  split_ifs at * <;> omega

/-- Witness for C6: 2027-01-01 is a Friday and belongs to week 53 of 2026,
and 2026-12-28 lies in the final week (53) of its own year. -/
theorem getWeekNumber_iso_witness :
    (ValidDate 2027 1 1 ∧ getWeekNumber 2027 1 1 = isoWeekNumber 2027 1 1 ∧
      getWeekNumber 2027 1 1 = 53) ∧
    (ValidDate 2026 12 28 ∧ getWeekNumber 2026 12 28 = isoWeekNumber 2026 12 28 ∧
      getWeekNumber 2026 12 28 = 53) :=
  ⟨⟨by decide, getWeekNumber_iso 2027 1 1 (by decide), by decide⟩,
   ⟨by decide, getWeekNumber_iso 2026 12 28 (by decide), by decide⟩⟩

/-! ### index.js: recipient routing (lines 82-123) -/

/-- JavaScript `String#toLowerCase` on the ASCII range. -/
def toLowerStr (s : String) : String := String.mk (s.toList.map Char.toLower)

/-- JavaScript `String#includes`: substring containment. -/
def containsSub : List Char → List Char → Bool
  | [], pat => pat == []
  | s@(_ :: rest), pat => (s.take pat.length == pat) || containsSub rest pat

def containsSubstr (s pat : String) : Bool := containsSub s.toList pat.toList

/-- The three processing pipelines the webhook routes to. -/
inductive Pipeline where
  | newsletterItem
  | event
  | inbox
deriving DecidableEq, Repr

/-- The webhook's routing rule (index.js 83-123): lower-case the recipient,
then a fixed if/else chain of substring tests, newsletter marker first,
events marker second, inbox as the catch-all. -/
def route (addr : String) : Pipeline :=
  let recipient := toLowerStr addr
  if containsSubstr recipient "nieuwsbriefitem@" = true then Pipeline.newsletterItem
  else if containsSubstr recipient "events@" = true then Pipeline.event
  else Pipeline.inbox

/-- C2: routing is substring containment on the lower-cased recipient,
evaluated as a fixed ordered if/else chain: the newsletter marker wins
whenever it is contained, regardless of what else the string contains and
where; otherwise the events marker wins; a recipient containing neither
marker routes to the catch-all inbox pipeline. -/
theorem route_priority (addr : String) :
    (containsSubstr (toLowerStr addr) "nieuwsbriefitem@" = true →
      route addr = Pipeline.newsletterItem) ∧
    (containsSubstr (toLowerStr addr) "nieuwsbriefitem@" = false →
      containsSubstr (toLowerStr addr) "events@" = true →
      route addr = Pipeline.event) ∧
    (containsSubstr (toLowerStr addr) "nieuwsbriefitem@" = false →
      containsSubstr (toLowerStr addr) "events@" = false →
      route addr = Pipeline.inbox) :=
  ⟨fun h1 => by simp [route, h1],
   fun h1 h2 => by simp [route, h1, h2],
   fun h1 h2 => by simp [route, h1, h2]⟩

/-- Witness for C2: a recipient containing both markers, with the events
marker first, still routes to the newsletter pipeline; one with only the
events marker routes to the event pipeline; an unmarked one to the inbox. -/
theorem route_priority_witness :
    containsSubstr (toLowerStr "Events@nieuwsbriefitem@bot.ciiic.nl")
        "nieuwsbriefitem@" = true ∧
    route "Events@nieuwsbriefitem@bot.ciiic.nl" = Pipeline.newsletterItem ∧
    route "events@bot.ciiic.nl" = Pipeline.event ∧
    route "info@bot.ciiic.nl" = Pipeline.inbox :=
  ⟨by decide,
   (route_priority "Events@nieuwsbriefitem@bot.ciiic.nl").1 (by decide),
   (route_priority "events@bot.ciiic.nl").2.1 (by decide) (by decide),
   (route_priority "info@bot.ciiic.nl").2.2 (by decide) (by decide)⟩

/-! ### index.js: stripHtml (lines 303-314) -/

/-- One attempt to match the tail of `<br\s*\/?>` after the literal `<br`:
skip whitespace, an optional slash, then require the closing bracket;
returns the remainder on success. -/
def brTail (l : List Char) : Option (List Char) :=
  match l.dropWhile (fun c => c.isWhitespace) with
  | '/' :: '>' :: rest => some rest
  | '>' :: rest => some rest
  | _ => none

/-- Global replacement of the break-tag pattern (`<br`, optional whitespace,
optional slash, `>`, case-insensitive) by a newline.  The fuel argument only
forces structural recursion: every caller passes the input's length, a step
always consumes at least one character, so the fuel never runs out. -/
def brScan : Nat → List Char → List Char
  | 0, l => l
  | _ + 1, [] => []
  | fuel + 1, '<' :: b :: r :: rest =>
      if b.toLower = 'b' ∧ r.toLower = 'r' then
        match brTail rest with
        | some rest2 => '\n' :: brScan fuel rest2
        | none => '<' :: brScan fuel (b :: r :: rest)
      else '<' :: brScan fuel (b :: r :: rest)
  | fuel + 1, c :: rest => c :: brScan fuel rest

/-- Global replacement of the paragraph-close tag (case-insensitive) by two
newlines. -/
def pScan : List Char → List Char
  | '<' :: '/' :: p :: '>' :: rest =>
      if p.toLower = 'p' then '\n' :: '\n' :: pScan rest
      else '<' :: pScan ('/' :: p :: '>' :: rest)
  | c :: rest => c :: pScan rest
  | [] => []

/-- Global deletion of remaining tags: at each `<`, a greedy run of one or
more non-`>` characters followed by `>` is removed; an immediate `>` is not
a match, and when no `>` follows anywhere nothing later can match either.
Fuel as in `brScan`. -/
def tagScan : Nat → List Char → List Char
  | 0, l => l
  | _ + 1, [] => []
  | fuel + 1, '<' :: rest =>
      match rest.takeWhile (fun c => c ≠ '>'), rest.dropWhile (fun c => c ≠ '>') with
      | [], _ => '<' :: tagScan fuel rest
      | _ :: _, '>' :: rest2 => tagScan fuel rest2
      | _ :: _, _ => '<' :: rest
  | fuel + 1, c :: rest => c :: tagScan fuel rest

/-- Replace every occurrence of `pat` (leftmost, non-overlapping), the way
`String#replace` with a global literal pattern does.  Fuel as in `brScan`. -/
def replaceScan (pat rep : List Char) : Nat → List Char → List Char
  | 0, l => l
  | _ + 1, [] => []
  | fuel + 1, c :: rest =>
      if pat ≠ [] ∧ (c :: rest).take pat.length = pat then
        rep ++ replaceScan pat rep fuel ((c :: rest).drop pat.length)
      else c :: replaceScan pat rep fuel rest

/-- The entity-decoding stage of `stripHtml`: exactly the four entities, in
the source's order. -/
def decodeEntities (l : List Char) : List Char :=
  let l4 := replaceScan "&nbsp;".toList " ".toList l.length l
  let l5 := replaceScan "&amp;".toList "&".toList l4.length l4
  let l6 := replaceScan "&lt;".toList "<".toList l5.length l5
  replaceScan "&gt;".toList ">".toList l6.length l6

/-- JavaScript `String#trim`: drop leading and trailing whitespace. -/
def trimChars (l : List Char) : List Char :=
  ((l.dropWhile (fun c => c.isWhitespace)).reverse.dropWhile
    (fun c => c.isWhitespace)).reverse

/-- `stripHtml` from `src/index.js` (lines 303-314): break tags and
paragraph closes become newlines, remaining tags are deleted, then the four
entities are decoded, then the ends are trimmed — in that order. -/
def stripHtml (html : String) : String :=
  let l1 := brScan html.toList.length html.toList
  let l2 := pScan l1
  let l3 := tagScan l2.length l2
  String.mk (trimChars (decodeEntities l3))

/-- C7: `stripHtml` decodes entities only after tag removal, so an escaped
tag such as `&lt;b&gt;` survives in the output as `<b>`, while running tag
removal on the decoded text would delete it; break tags and paragraph closes
become newlines before tag deletion, and the result is trimmed. -/
theorem stripHtml_order :
    stripHtml "&lt;b&gt;" = "<b>" ∧
    String.mk (tagScan (decodeEntities "&lt;b&gt;".toList).length
        (decodeEntities "&lt;b&gt;".toList)) = "" ∧
    stripHtml "<p>Hello<br/>world</p>" = "Hello\nworld" ∧
    stripHtml " <div>A &amp; B</div> " = "A & B" ∧
    stripHtml "<BR >x" = "x" ∧
    stripHtml "a<b" = "a<b" :=
  ⟨by decide, by decide, by decide, by decide, by decide, by decide⟩

/-! ### index.js: parseInboundEmail (lines 200-264) -/

/-- A JSON value as the webhook sees payload fields: absent (or undefined or
null), a string, an object, or an array. -/
inductive JVal where
  | undefined
  | str (s : String)
  | obj (fields : List (String × JVal))
  | arr (items : List JVal)

/-- JavaScript truthiness of a payload field: absent values and the empty
string are falsy, objects and arrays are truthy. -/
def JVal.truthy : JVal → Bool
  | .undefined => false
  | .str s => s != ""
  | .obj _ => true
  | .arr _ => true

/-- JavaScript `a || b` on payload fields. -/
def jsOr (a b : JVal) : JVal := if a.truthy then a else b

/-- JavaScript optional member access `a?.k`. -/
def JVal.get : JVal → String → JVal
  | .obj fs, k =>
    match fs.lookup k with
    | some v => v
    | none => .undefined
  | _, _ => .undefined

/-- JavaScript optional index access `a?.[n]` (a string indexes to its
n-th character). -/
def JVal.idx : JVal → Nat → JVal
  | .arr items, n => items.getD n .undefined
  | .str s, n =>
    match s.toList.drop n with
    | c :: _ => .str (String.mk [c])
    | [] => .undefined
  | _, _ => .undefined

/-- The string content of a field the source goes on to treat as a string;
non-string values yield the empty string here (the JSON shapes the providers
send only put strings in these positions). -/
def JVal.asStr : JVal → String
  | .str s => s
  | _ => ""

/-- Auxiliary for `extractEmail`: the first angle-bracket capture, greedy in
the non-`>` run, as the source's single-capture regular expression finds. -/
def extractAux : List Char → Option (List Char)
  | [] => none
  | '<' :: rest =>
      match rest.takeWhile (fun c => c ≠ '>'), rest.dropWhile (fun c => c ≠ '>') with
      | c :: cs, '>' :: _ => some (c :: cs)
      | _, _ => extractAux rest
  | _ :: rest => extractAux rest

/-- `extractEmail` from `src/index.js` (lines 269-273): the capture of the
first `<...>` group, or the whole string when no such group matches; falsy
input gives the empty string. -/
def extractEmail (s : String) : String :=
  if s = "" then ""
  else
    match extractAux s.toList with
    | some cap => String.mk cap
    | none => s

/-- The payload fields that the five shape predicates and the extractors of
`parseInboundEmail` read.  Hyphenated JSON keys (`body-plain`, `body-html`)
are written `bodyPlain`/`bodyHtml`; `from` and `to` are Lean keywords and
written with guillemets. -/
structure Payload where
  Uuid : JVal := .undefined
  MessageId : JVal := .undefined
  From : JVal := .undefined
  ReplyTo : JVal := .undefined
  To : JVal := .undefined
  Subject : JVal := .undefined
  RawTextBody : JVal := .undefined
  RawHtmlBody : JVal := .undefined
  ExtractedMarkdownMessage : JVal := .undefined
  FromFull : JVal := .undefined
  ToFull : JVal := .undefined
  TextBody : JVal := .undefined
  HtmlBody : JVal := .undefined
  «from» : JVal := .undefined
  sender : JVal := .undefined
  text : JVal := .undefined
  html : JVal := .undefined
  envelope : JVal := .undefined
  bodyPlain : JVal := .undefined
  bodyHtml : JVal := .undefined
  «to» : JVal := .undefined
  recipient : JVal := .undefined
  subject : JVal := .undefined
  body : JVal := .undefined
  content : JVal := .undefined
  message : JVal := .undefined
  email : JVal := .undefined
  from_email : JVal := .undefined

/-- The raw `{from, to, subject, body}` object `parseInboundEmail` returns;
the values keep their JSON type because the source copies them untyped. -/
structure RawEnvelope where
  «from» : JVal
  «to» : JVal
  subject : JVal
  body : JVal

/-- Brevo shape test: `body.Uuid || body.MessageId || (body.From && body.RawHtmlBody)`. -/
def matchesBrevo (p : Payload) : Bool :=
  p.Uuid.truthy || p.MessageId.truthy || (p.From.truthy && p.RawHtmlBody.truthy)

/-- SendGrid shape test: `body.from && (body.text || body.html)`. -/
def matchesSendGrid (p : Payload) : Bool :=
  p.«from».truthy && (p.text.truthy || p.html.truthy)

/-- Mailgun shape test: `body.sender && (body['body-plain'] || body['body-html'])`. -/
def matchesMailgun (p : Payload) : Bool :=
  p.sender.truthy && (p.bodyPlain.truthy || p.bodyHtml.truthy)

/-- Postmark shape test: `body.FromFull || body.From`. -/
def matchesPostmark (p : Payload) : Bool :=
  p.FromFull.truthy || p.From.truthy

/-- Generic shape test: `body.from || body.sender`. -/
def matchesGeneric (p : Payload) : Bool :=
  p.«from».truthy || p.sender.truthy

/-- Whether a member list still contains a defined (serialized) member;
controls the commas `JSON.stringify` emits. -/
def hasDefined : List (String × JVal) → Bool
  | [] => false
  | (_, .undefined) :: rest => hasDefined rest
  | _ :: _ => true

mutual

/-- `JSON.stringify` on a payload value: undefined members are omitted,
undefined array elements become null; string escaping is not modelled. -/
def serializeJ : JVal → String
  | .undefined => ""
  | .str s => "\"" ++ s ++ "\""
  | .obj fs => "\x7b" ++ serializeMembers fs ++ "\x7d"
  | .arr items => "[" ++ serializeElems items ++ "]"

def serializeMembers : List (String × JVal) → String
  | [] => ""
  | (_, .undefined) :: rest => serializeMembers rest
  | (k, v) :: rest =>
      "\"" ++ k ++ "\":" ++ serializeJ v ++ (if hasDefined rest then "," else "")
        ++ serializeMembers rest

def serializeElems : List JVal → String
  | [] => ""
  | [.undefined] => "null"
  | [v] => serializeJ v
  | .undefined :: rest => "null," ++ serializeElems rest
  | v :: rest => serializeJ v ++ "," ++ serializeElems rest

end

/-- `JSON.stringify(body)` for the whole payload, member order as received. -/
def serializePayload (p : Payload) : String :=
  serializeJ (.obj [("Uuid", p.Uuid), ("MessageId", p.MessageId), ("From", p.From),
    ("ReplyTo", p.ReplyTo), ("To", p.To), ("Subject", p.Subject),
    ("RawTextBody", p.RawTextBody), ("RawHtmlBody", p.RawHtmlBody),
    ("ExtractedMarkdownMessage", p.ExtractedMarkdownMessage),
    ("FromFull", p.FromFull), ("ToFull", p.ToFull), ("TextBody", p.TextBody),
    ("HtmlBody", p.HtmlBody), ("from", p.«from»), ("sender", p.sender),
    ("text", p.text), ("html", p.html), ("envelope", p.envelope),
    ("body-plain", p.bodyPlain), ("body-html", p.bodyHtml), ("to", p.«to»),
    ("recipient", p.recipient), ("subject", p.subject), ("body", p.body),
    ("content", p.content), ("message", p.message), ("email", p.email),
    ("from_email", p.from_email)])

/-- The fallback branch of `parseInboundEmail` (index.js 256-264). -/
def parseFallback (p : Payload) : RawEnvelope :=
  ⟨jsOr p.email (jsOr p.from_email (.str "unknown")),
   jsOr p.«to» (jsOr p.recipient (.str "")),
   jsOr p.subject (.str ""),
   jsOr p.body (jsOr p.text (jsOr p.content (jsOr p.message
     (.str (serializePayload p)))))⟩

/-- `parseInboundEmail` from `src/index.js` (lines 200-264): the ordered
provider-shape chain with its extractors, then the best-effort fallback. -/
def parseInboundEmail (p : Payload) : RawEnvelope :=
  if matchesBrevo p then
    ⟨jsOr (p.From.get "Address")
       (jsOr (match p.From with
              | .str s => .str (extractEmail s)
              | _ => .str "")
         (.str (extractEmail (jsOr p.ReplyTo (.str "")).asStr))),
     .str (extractEmail (jsOr ((p.To.idx 0).get "Address")
       (jsOr (p.To.idx 0) (jsOr p.To (.str "")))).asStr),
     jsOr p.Subject (.str ""),
     jsOr p.RawTextBody (jsOr p.ExtractedMarkdownMessage
       (.str (stripHtml p.RawHtmlBody.asStr)))⟩
  else if matchesSendGrid p then
    ⟨.str (extractEmail p.«from».asStr),
     .str (extractEmail (jsOr p.«to»
       (jsOr ((p.envelope.get "to").idx 0) (.str ""))).asStr),
     jsOr p.subject (.str ""),
     jsOr p.text (.str (stripHtml p.html.asStr))⟩
  else if matchesMailgun p then
    ⟨p.sender,
     jsOr p.recipient (.str ""),
     jsOr p.subject (.str ""),
     jsOr p.bodyPlain (.str (stripHtml p.bodyHtml.asStr))⟩
  else if matchesPostmark p then
    ⟨jsOr (p.FromFull.get "Email") p.From,
     jsOr ((p.ToFull.idx 0).get "Email") (jsOr p.To (.str "")),
     jsOr p.Subject (.str ""),
     jsOr p.TextBody (.str (stripHtml p.HtmlBody.asStr))⟩
  else if matchesGeneric p then
    ⟨jsOr p.«from» p.sender,
     jsOr p.«to» (jsOr p.recipient (.str "")),
     jsOr p.subject (.str ""),
     jsOr p.body (jsOr p.text (jsOr p.content p.html))⟩
  else parseFallback p

theorem jsOr_truthy (a b : JVal) (hb : b.truthy = true) : (jsOr a b).truthy = true := by
  unfold jsOr
  split_ifs with h
  · exact h
  · exact hb

theorem serializeJ_obj_ne_empty (fs : List (String × JVal)) :
    serializeJ (.obj fs) ≠ "" := by
  intro h
  rw [serializeJ] at h
  have hlen := congrArg String.length h
  rw [String.length_append, String.length_append] at hlen
  have h1 : ("\x7b").length = 1 := by decide
  have h2 : ("\x7d").length = 1 := by decide
  have h3 : ("" : String).length = 0 := by decide
  omega

theorem serializePayload_ne_empty (p : Payload) : serializePayload p ≠ "" :=
  serializeJ_obj_ne_empty _

/-- C1: a payload matching none of the five provider-shape predicates takes
the fallback, whose body is the first truthy of the `body`, `text`,
`content`, `message` fields, and otherwise the entire payload serialized;
serialization of a payload object is never empty, so the fallback body is
always truthy and normalization never fails — the webhook's no-body 400
cannot fire — for an unrecognized payload, even an empty one. -/
theorem parseInboundEmail_fallback_total (p : Payload)
    (h1 : matchesBrevo p = false) (h2 : matchesSendGrid p = false)
    (h3 : matchesMailgun p = false) (h4 : matchesPostmark p = false)
    (h5 : matchesGeneric p = false) :
    parseInboundEmail p = parseFallback p ∧
    (parseInboundEmail p).body.truthy = true ∧
    (p.body.truthy = false → p.text.truthy = false → p.content.truthy = false →
      p.message.truthy = false →
      (parseInboundEmail p).body = .str (serializePayload p)) := by
  have he : parseInboundEmail p = parseFallback p := by
    simp only [parseInboundEmail, h1, h2, h3, h4, h5, Bool.false_eq_true,
      if_false]
  have hser : (JVal.str (serializePayload p)).truthy = true := by
    simp only [JVal.truthy, bne_iff_ne, ne_eq]
    exact serializePayload_ne_empty p
  refine ⟨he, ?_, ?_⟩
  · rw [he]
    exact jsOr_truthy _ _ (jsOr_truthy _ _ (jsOr_truthy _ _ (jsOr_truthy _ _ hser)))
  · intro hb ht hc hm
    rw [he]
    show (jsOr p.body (jsOr p.text (jsOr p.content (jsOr p.message
      (.str (serializePayload p)))))) = .str (serializePayload p)
    simp only [jsOr, hb, ht, hc, hm, Bool.false_eq_true, if_false]

/-- An unrecognized payload: only a `message` field is present. -/
def exPayload : Payload := { message := .str "hello" }

/-- Witness for C1: the example payload matches no provider shape and the
fallback produces a truthy body for it. -/
theorem parseInboundEmail_fallback_total_witness :
    (matchesBrevo exPayload = false ∧ matchesSendGrid exPayload = false ∧
      matchesMailgun exPayload = false ∧ matchesPostmark exPayload = false ∧
      matchesGeneric exPayload = false) ∧
    (parseInboundEmail exPayload = parseFallback exPayload ∧
      (parseInboundEmail exPayload).body.truthy = true ∧
      (exPayload.body.truthy = false → exPayload.text.truthy = false →
        exPayload.content.truthy = false → exPayload.message.truthy = false →
        (parseInboundEmail exPayload).body = .str (serializePayload exPayload))) :=
  ⟨⟨rfl, rfl, rfl, rfl, rfl⟩,
   parseInboundEmail_fallback_total exPayload rfl rfl rfl rfl rfl⟩

/-! ### index.js: processEmail (lines 319-371) and the webhook error wrapper -/

/-- The fields of the AI-extraction result that the event pipeline reads. -/
structure EventData where
  eventName : Option String := none
  eventDate : Option String := none
  eventTime : Option String := none
  endDate : Option String := none
  endTime : Option String := none
  venue : Option String := none
  eventUrl : Option String := none
  beschrijving : Option String := none
  publishToSite : Option Bool := none
  senderName : Option String := none
deriving DecidableEq, Repr

/-- The external calls `processEmail` makes, in order. -/
inductive Effect where
  | parseEvent (content : String)
  | errorEmail (recipient : String)
  | notionCreateEvent
  | zapier
  | confirmEmail (recipient : String)
deriving DecidableEq, Repr

/-- The `Subject: ...` preamble `processEmail` feeds the extraction call. -/
def fullContent (subject bodyTxt : String) : String :=
  if subject ≠ "" then "Subject: " ++ subject ++ "\n\n" ++ bodyTxt else bodyTxt

/-- `processEmail` from `src/index.js` (lines 319-371), with its external
collaborators as oracle inputs: `aiResult` is what the extraction call
returns, `notionUrl` the page URL the record store's create returns, and the
two Booleans whether each best-effort email send throws — the source catches
both (`.catch` on the error notification, try/catch on the confirmation), so
neither may influence the outcome or the call sequence.  The first component
is the outcome (a JavaScript `throw` is `Except.error`), the second the list
of external calls made, in order. -/
def processEmail (sender subject bodyTxt : String) (aiResult : EventData)
    (notionUrl : String) (errorEmailFails confirmFails : Bool) :
    Except String (String × String) × List Effect :=
  let content := fullContent subject bodyTxt
  if truthy aiResult.eventName = false ∨ truthy aiResult.eventDate = false then
    let msg := "Could not extract event name or date from email"
    if sender ≠ "" ∧ sender ≠ "unknown" then
      (Except.error msg, [Effect.parseEvent content, Effect.errorEmail sender])
    else
      (Except.error msg, [Effect.parseEvent content])
  else
    let name := aiResult.eventName.getD ""
    if sender ≠ "" ∧ sender ≠ "unknown" ∧ sender ≠ "test@example.com" then
      (Except.ok (name, notionUrl),
       [Effect.parseEvent content, Effect.notionCreateEvent, Effect.zapier,
        Effect.confirmEmail sender])
    else
      (Except.ok (name, notionUrl),
       [Effect.parseEvent content, Effect.notionCreateEvent, Effect.zapier])

/-- The webhook's catch-all error handler (index.js 124-130): a thrown error
becomes status 500 with `success: false`, a normal return status 200 with
`success: true`. -/
def webhookStatus : Except String (String × String) → Nat × Bool
  | Except.error _ => (500, false)
  | Except.ok _ => (200, true)

/-- C8: when the extraction result lacks a truthy event name or event date,
the event pipeline fails fatally: the outcome is a thrown error that the
webhook maps to a 500 `success: false` response; no record-store create is
performed (validation precedes `createEvent`, so the store is untouched); an
error-notification email to the sender is attempted whenever the sender is
known; and that email's own failure is swallowed — the whole behaviour is
independent of it. -/
theorem processEmail_validation_fatal (sender subject bodyTxt : String)
    (aiResult : EventData) (notionUrl : String) (eFail cFail : Bool)
    (h : truthy aiResult.eventName = false ∨ truthy aiResult.eventDate = false) :
    (∃ msg, (processEmail sender subject bodyTxt aiResult notionUrl eFail cFail).1
        = Except.error msg) ∧
    webhookStatus (processEmail sender subject bodyTxt aiResult notionUrl eFail cFail).1
        = (500, false) ∧
    Effect.notionCreateEvent ∉
      (processEmail sender subject bodyTxt aiResult notionUrl eFail cFail).2 ∧
    (sender ≠ "" ∧ sender ≠ "unknown" →
      Effect.errorEmail sender ∈
        (processEmail sender subject bodyTxt aiResult notionUrl eFail cFail).2) ∧
    processEmail sender subject bodyTxt aiResult notionUrl true cFail
      = processEmail sender subject bodyTxt aiResult notionUrl false cFail := by
  unfold processEmail
  rw [if_pos h]
  by_cases hs : sender ≠ "" ∧ sender ≠ "unknown"
  · rw [if_pos hs]
    refine ⟨⟨_, rfl⟩, rfl, by simp, fun _ => by simp, rfl⟩
  · rw [if_neg hs]
    refine ⟨⟨_, rfl⟩, rfl, by simp, fun hc => absurd hc hs, rfl⟩

/-- Witness for C8: an extraction result with no event date, sent by a known
sender, with the confirmation oracle set to fail. -/
theorem processEmail_validation_fatal_witness :
    (truthy (EventData.mk (some "Meetup") none none none none none none none
        none none).eventName = false ∨
      truthy (EventData.mk (some "Meetup") none none none none none none none
        none none).eventDate = false) ∧
    (∃ msg, (processEmail "a@x.com" "Meetup" "body"
        (EventData.mk (some "Meetup") none none none none none none none
          none none) "https://notion.so/x" false true).1 = Except.error msg) ∧
    webhookStatus (processEmail "a@x.com" "Meetup" "body"
        (EventData.mk (some "Meetup") none none none none none none none
          none none) "https://notion.so/x" false true).1 = (500, false) :=
  have hth := processEmail_validation_fatal "a@x.com" "Meetup" "body"
    (EventData.mk (some "Meetup") none none none none none none none none none)
    "https://notion.so/x" false true (by decide)
  ⟨by decide, hth.1, hth.2.1⟩

/-! ### notion.js: findNewsletterItem and createContentItem (lines 357-476) -/

/-- Outcome of the record store's weekly-container query: the query throws,
or returns its (possibly empty) list of page ids. -/
inductive QueryOutcome where
  | err (msg : String)
  | results (ids : List String)
deriving DecidableEq, Repr

/-- `findNewsletterItem` from `src/services/notion.js` (lines 357-383): the
search title is the fixed template around the week number; a query error is
caught and logged and a miss returns null — the function never raises. -/
def findNewsletterItem (weekNumber : Int) (q : QueryOutcome) :
    Option (String × String) :=
  match q with
  | .err _ => none
  | .results [] => none
  | .results (pid :: _) => some (pid, "Nieuwsbrief week " ++ toString weekNumber)

/-- Civil date of a day count (the inverse of `dateToDays`), the way
`getUTCFullYear` / `getUTCMonth` / `getUTCDate` read a `Date`. -/
def daysToDate (t : Int) : Int × Int × Int :=
  let z := t + 719468
  let era := (if 0 ≤ z then z else z - 146096) / 146097
  let doe := z - era * 146097
  let yoe := (doe - doe / 1460 + doe / 36524 - doe / 146096) / 365
  let y := yoe + era * 400
  let doy := doe - (365 * yoe + yoe / 4 - yoe / 100)
  let mp := (5 * doy + 2) / 153
  let d := doy - (153 * mp + 2) / 5 + 1
  let m := if mp < 10 then mp + 3 else mp - 9
  (if m ≤ 2 then y + 1 else y, m, d)

/-- `getWeekNumber` applied to a day count (the source passes a `Date`). -/
def getWeekNumberOfDay (t : Int) : Int :=
  match daysToDate t with
  | (y, m, d) => getWeekNumber y m d

/-- Zero padding used by `formatDate`. -/
def pad2 (n : Int) : String := if n < 10 then "0" ++ toString n else toString n

/-- `formatDate` from `src/services/notion.js` (lines 348-350): the
`YYYY-MM-DD` rendering of a day count. -/
def formatDate (t : Int) : String :=
  match daysToDate t with
  | (y, m, d) => toString y ++ "-" ++ pad2 m ++ "-" ++ pad2 d

/-- The properties `createContentItem` sends to the record store. -/
structure ContentProps where
  titel : String
  publicatiedatum : String
  platform : String
  beschrijving : Option String
  url : Option String
  inNieuwsbrief : Option String
deriving DecidableEq, Repr

/-- What `createContentItem` returns to its caller. -/
structure ContentResult where
  id : String
  url : String
  weekNumber : Int
  publicatieDatum : String
  linkedNewsletter : Option String
deriving DecidableEq, Repr

/-- The store calls `createContentItem` makes, in order, with the warning
surfaced on a container miss. -/
inductive NEffect where
  | queryNewsletter (title : String)
  | warnMissing (weekNumber : Int)
  | createPage
deriving DecidableEq, Repr

/-- `createContentItem` from `src/services/notion.js` (lines 390-476), with
the record store as oracle: `today` is the current day count, `q` the
outcome of the weekly-container query, `pageId`/`pageUrl` what the store's
create call returns.  Returns the caller-visible result, the properties sent
to the create call, and the external calls made, in order. -/
def createContentItem (title beschrijving url : Option String) (today : Int)
    (q : QueryOutcome) (pageId pageUrl : String) :
    ContentResult × ContentProps × List NEffect :=
  let nt := getNextThursday today
  let weekNumber := getWeekNumberOfDay nt
  let publicatieDatum := formatDate nt
  let newsletterItem := findNewsletterItem weekNumber q
  let props : ContentProps :=
    { titel := if truthy title = true then title.getD "" else "Nieuwsbrief item"
      publicatiedatum := publicatieDatum
      platform := "E-mail-onderdeel"
      beschrijving :=
        if truthy beschrijving = true then
          some (String.mk ((beschrijving.getD "").toList.take 2000))
        else none
      url := if truthy url = true then url else none
      inNieuwsbrief := newsletterItem.map (fun it => it.1) }
  let effs := [NEffect.queryNewsletter ("Nieuwsbrief week " ++ toString weekNumber)]
    ++ (match newsletterItem with
        | some _ => []
        | none => [NEffect.warnMissing weekNumber])
    ++ [NEffect.createPage]
  (⟨pageId, pageUrl, weekNumber, publicatieDatum,
    newsletterItem.map (fun it => it.2)⟩, props, effs)

/-- C9: a weekly-container miss is never an error: a store query that errors
or returns nothing makes `findNewsletterItem` return null instead of
raising, and `createContentItem` still performs the store create — without
the relation —, surfaces a warning, and reports a null `linkedNewsletter`. -/
theorem createContentItem_miss_nonfatal (title beschrijving url : Option String)
    (today : Int) (q : QueryOutcome) (pageId pageUrl : String)
    (h : findNewsletterItem (getWeekNumberOfDay (getNextThursday today)) q = none) :
    (∀ msg w, q = QueryOutcome.err msg → findNewsletterItem w q = none) ∧
    NEffect.createPage ∈
      (createContentItem title beschrijving url today q pageId pageUrl).2.2 ∧
    NEffect.warnMissing (getWeekNumberOfDay (getNextThursday today)) ∈
      (createContentItem title beschrijving url today q pageId pageUrl).2.2 ∧
    (createContentItem title beschrijving url today q pageId pageUrl).2.1.inNieuwsbrief
      = none ∧
    (createContentItem title beschrijving url today q pageId pageUrl).1.linkedNewsletter
      = none ∧
    (createContentItem title beschrijving url today q pageId pageUrl).1.url = pageUrl := by
  refine ⟨fun msg w hq => by rw [hq]; rfl, ?_, ?_, ?_, ?_, ?_⟩ <;>
    simp only [createContentItem] <;> (try rw [h]) <;> simp

/-- Witness for C9: an empty query result on day 0; the create still happens
and nothing is linked. -/
theorem createContentItem_miss_nonfatal_witness :
    findNewsletterItem (getWeekNumberOfDay (getNextThursday 0))
        (QueryOutcome.results []) = none ∧
    (NEffect.createPage ∈
        (createContentItem none none none 0 (QueryOutcome.results []) "pid"
          "https://notion.so/pid").2.2 ∧
      (createContentItem none none none 0 (QueryOutcome.results []) "pid"
        "https://notion.so/pid").1.linkedNewsletter = none) :=
  have hth := createContentItem_miss_nonfatal none none none 0
    (QueryOutcome.results []) "pid" "https://notion.so/pid" rfl
  ⟨rfl, hth.2.1, hth.2.2.2.2.1⟩

/-! ### notion.js: createEvent's properties and addComment (lines 181-256, 483-502) -/

/-- The properties `createEvent` sends to the record store (notion.js
181-256); the description is passed through without truncation. -/
structure EventProps where
  eventName : String
  eventDate : DateProp
  publishToSite : Bool
  venue : Option String
  eventUrl : Option String
  beschrijving : Option String
deriving DecidableEq, Repr

/-- The pure property construction of `createEvent`. -/
def createEventProps (e : EventData) : EventProps :=
  { eventName := if truthy e.eventName = true then e.eventName.getD ""
      else "Untitled Event"
    eventDate := buildDateProperty e.eventDate e.eventTime e.endDate e.endTime
    publishToSite := e.publishToSite.getD false
    venue := if truthy e.venue = true then e.venue else none
    eventUrl := if truthy e.eventUrl = true then e.eventUrl else none
    beschrijving := if truthy e.beschrijving = true then e.beschrijving else none }

/-- The comment text `addComment` (notion.js 483-502) sends to the store:
`comment.substring(0, 2000)`. -/
def addCommentText (comment : String) : String :=
  String.mk (comment.toList.take 2000)

/-- A 2001-character description. -/
def longDescription : String := String.mk (List.replicate 2001 'a')

/-- Counterexample to C10: `createEvent` sends its free-text `Beschrijving`
property to the record store untruncated, so a 2001-character event
description reaches the store in full, longer than 2000 characters. -/
theorem createEvent_beschrijving_untruncated :
    (createEventProps { beschrijving := some longDescription }).beschrijving
        = some longDescription ∧
    2000 < longDescription.length := by
  have h1 : longDescription.length = (List.replicate 2001 'a').length := rfl
  rw [List.length_replicate] at h1
  have hne : longDescription ≠ "" := by
    intro hctr
    have hctr2 := congrArg String.length hctr
    rw [h1] at hctr2
    exact absurd hctr2 (by decide)
  constructor
  · show (if truthy (some longDescription) = true then some longDescription
        else none) = some longDescription
    simp [truthy, hne]
  · omega

/-- C10 amended: the comment body (`addComment`) and the content item's
description (`createContentItem`) are truncated to at most 2000 characters
before the store call, for every input length; the event record's
description (`createEvent`) is not. -/
theorem truncation_comment_and_content (c : String)
    (title beschrijving url : Option String) (today : Int) (q : QueryOutcome)
    (pageId pageUrl : String) :
    (addCommentText c).length ≤ 2000 ∧
    (∀ s, (createContentItem title beschrijving url today q pageId
        pageUrl).2.1.beschrijving = some s → s.length ≤ 2000) := by
  constructor
  · show (c.toList.take 2000).length ≤ 2000
    simp
  · intro s hs
    simp only [createContentItem] at hs
    by_cases hb : truthy beschrijving = true
    · rw [if_pos hb] at hs
      cases hs
      show (((beschrijving.getD "").toList.take 2000)).length ≤ 2000
      simp
    · rw [if_neg hb] at hs
      cases hs

/-- Witness for C10's amended statement: a 2001-character comment and
content description are both cut to 2000. -/
theorem truncation_comment_and_content_witness :
    (addCommentText longDescription).length ≤ 2000 ∧
    (∀ s, (createContentItem none (some longDescription) none 0
        (QueryOutcome.results []) "pid" "u").2.1.beschrijving = some s →
      s.length ≤ 2000) :=
  truncation_comment_and_content longDescription none (some longDescription)
    none 0 (QueryOutcome.results []) "pid" "u"

end Relaybot
